import Mathlib

/-!
Shallow embedding of the shadow-workspace execution core of
`src/build/shadow/CursorShadowWorkspaceHandler.js` (the compiled build of
`src/src/shadow/CursorShadowWorkspaceHandler.ts`, which additionally contains
`detectAndRunSetupCommands`).

Modelling conventions:
* The per-request workspace filesystem is a list of (relative path, content)
  pairs; `path.join(workspacePath, rel)` is represented by `rel` (the model
  filesystem is rooted at the workspace directory).  `fs.access` succeeds on a
  path that is a file or a directory prefix of some file.
* External effects are events: file writes, executed shell commands, workspace
  creation/destruction.  Shell commands do not mutate the model filesystem
  (their on-disk side effects are outside the model).
* `child_process.exec` outcomes come from an oracle `String → RawExec` giving
  the error message (if the callback received an error), stdout and stderr.
* `JSON.parse` of a package.json is abstracted by an oracle
  `String → Option Manifest` (`none` models a parse failure / throw).
* Thrown JS exceptions are `Except.error` carrying the message.
-/

namespace Shadow

/-- The quote character `'` (written via its code point to keep source plain). -/
def squote : Char := Char.ofNat 39

/-- JS `String.prototype.startsWith` on our strings. -/
def jsStartsWith (s p : String) : Bool := p.toList.isPrefixOf s.toList

/-- JS `String.prototype.endsWith`. -/
def jsEndsWith (s p : String) : Bool := p.toList.reverse.isPrefixOf s.toList.reverse

/-- Substring test on char lists: does `pat` occur inside `s`? -/
def listInfix (pat : List Char) : List Char → Bool
  | [] => pat.isEmpty
  | c :: rest => pat.isPrefixOf (c :: rest) || listInfix pat rest

/-- JS `String.prototype.includes`. -/
def strContains (s pat : String) : Bool := listInfix pat.toList s.toList

/-- ASCII lower-casing of one character (enough for file extensions). -/
def lowerChar (c : Char) : Char :=
  if 'A' ≤ c ∧ c ≤ 'Z' then Char.ofNat (c.toNat + 32) else c

/-- JS `String.prototype.toLowerCase`, restricted to ASCII. -/
def toLowerCase (s : String) : String := String.mk (s.toList.map lowerChar)

/-- JS whitespace test used by `trim` (ASCII subset). -/
def isWs (c : Char) : Bool := c = ' ' || c = '\t' || c = '\n' || c = '\r'

/-- JS `String.prototype.trim`. -/
def jsTrim (s : String) : String :=
  String.mk (((s.toList.dropWhile isWs).reverse.dropWhile isWs).reverse)

/-- Last path component (Node `path.basename`, forward slashes). -/
def basename (p : String) : String :=
  String.mk ((p.toList.reverse.takeWhile (fun c => c ≠ '/')).reverse)

/-- Node `path.extname`: extension of the basename, `""` for dot-files and
extension-less names. -/
def extname (p : String) : String :=
  let b := (basename p).toList
  let after := b.reverse.takeWhile (fun c => c ≠ '.')
  if after.length = b.length then ""
  else if b.length - 1 - after.length = 0 then ""
  else String.mk ('.' :: after.reverse)

/-- Is `c` one of the two JS quote characters (from the regex class `["']`)? -/
def isQuote (c : Char) : Bool := c = '"' || c = squote

/-- Try to complete a regex match of `["']([^"']+)["']` whose opening quote was
just consumed; returns the capture group. -/
def matchQuotedAt (rest : List Char) : Option String :=
  let cap := rest.takeWhile (fun c => !isQuote c)
  if cap.isEmpty then none
  else
    match rest.drop cap.length with
    | [] => none
    | c :: _ => if isQuote c then some (String.mk cap) else none

/-- First match of the regex `["']([^"']+)["']`, scanning start positions left
to right as a regex engine does. -/
def firstQuoted : List Char → Option String
  | [] => none
  | c :: rest =>
    if isQuote c then
      match matchQuotedAt rest with
      | some s => some s
      | none => firstQuoted rest
    else firstQuoted rest

/-- JS `str.match(/["']([^"']+)["']/)?.[1]`. -/
def extractQuoted (s : String) : Option String := firstQuoted s.toList

/-- JS truthiness of an optional string (`undefined` and `""` are falsy). -/
def optTruthy : Option String → Bool
  | none => false
  | some s => s != ""

/-- A model workspace filesystem: files as (relative path, content), in
directory-walk order. -/
structure FS where
  files : List (String × String)
  deriving Repr, DecidableEq

/-- Does `p` name an existing file? -/
def fsIsFile (fs : FS) (p : String) : Bool :=
  fs.files.any (fun e => e.1 == p)

/-- Content of the file at `p` (`fs.readFile`), if present. -/
def fsLookup (fs : FS) (p : String) : Option String :=
  (fs.files.find? (fun e => e.1 == p)).map (fun e => e.2)

/-- Node `fs.access`: succeeds on an existing file or directory. -/
def fsAccess (fs : FS) (p : String) : Bool :=
  fs.files.any (fun e => e.1 == p || jsStartsWith e.1 (p ++ "/"))

/-- `fs.writeFile`: overwrite an existing entry in place or append a new one. -/
def fsWrite (fs : FS) (p c : String) : FS :=
  if fs.files.any (fun e => e.1 == p) then
    ⟨fs.files.map (fun e => if e.1 == p then (p, c) else e)⟩
  else ⟨fs.files ++ [(p, c)]⟩

/-- Observable effects of one `runCode` call. -/
inductive Event where
  | createWs (path : String)
  | writeFile (path content : String)
  | runCmd (command : String)
  | destroyWs (path : String)
  deriving Repr, DecidableEq

/-- Events that the body of `runCode` may emit (everything except workspace
creation/destruction, which the wrapper owns). -/
def isWriteOrRun : Event → Bool
  | .writeFile _ _ => true
  | .runCmd _ => true
  | _ => false

/-- The commands executed in an event list, in order. -/
def cmdsOf (evs : List Event) : List String :=
  evs.filterMap (fun e => match e with | .runCmd c => some c | _ => none)

/-- World state threaded through a request: workspace filesystem plus the
event trace so far. -/
structure Wst where
  fs : FS
  events : List Event
  deriving Repr

def emitWrite (st : Wst) (p c : String) : Wst :=
  { fs := fsWrite st.fs p c, events := st.events ++ [Event.writeFile p c] }

def emitCmd (st : Wst) (c : String) : Wst :=
  { st with events := st.events ++ [Event.runCmd c] }

/-- Raw outcome of `child_process.exec` for one command: the callback's error
message (if any), stdout and stderr. -/
structure RawExec where
  err : Option String
  stdout : String
  stderr : String
  deriving Repr, DecidableEq

/-- Oracle assigning each command its `exec` outcome. -/
abbrev Oracle := String → RawExec

/-- `scripts` object of a parsed package.json (the fields the handler reads;
`buildProd` is the `"build:prod"` script). -/
structure Scripts where
  start : Option String := none
  dev : Option String := none
  build : Option String := none
  buildProd : Option String := none
  deriving Repr, DecidableEq

/-- Parsed package.json fields the handler reads. -/
structure Manifest where
  main : Option String := none
  module : Option String := none
  source : Option String := none
  browser : Option String := none
  scripts : Scripts := {}
  deriving Repr, DecidableEq

/-- Oracle for `JSON.parse` of package.json contents (`none` = throw). -/
abbrev ParseFn := String → Option Manifest

/-- One dependency file of a request. -/
structure DepFile where
  filename : String
  code : String
  deriving Repr, DecidableEq

/-- `ShadowWorkspaceOptions` of the source. `autoSetup = true` models both
`true` and `undefined` (the code tests `options.autoSetup !== false`). -/
structure Options where
  code : Option String := none
  filename : Option String := none
  filepath : Option String := none
  dependencies : List DepFile := []
  entryPoint : Option String := none
  autoSetup : Bool := true
  deriving Repr

/-- Handler instance state: base directory and workspace counter. -/
structure Handler where
  workspaceBaseDir : String
  workspaceCount : Nat
  deriving Repr, DecidableEq

/-- `createWorkspaceDirectory`: bump the counter, derive the path. -/
def createWorkspaceDirectory (h : Handler) : Handler × String :=
  let n := h.workspaceCount + 1
  ({ h with workspaceCount := n }, h.workspaceBaseDir ++ "/workspace_" ++ toString n)

/-- An entry of the `entryPointPatterns` table of `detectEntryPoint`. -/
structure EntryPattern where
  file : String
  type : String
  deriving Repr, DecidableEq

/-- An entry of the `frameworkConfigs` table of `detectEntryPoint`. -/
structure FrameworkConfig where
  file : String
  type : String
  entry : String
  deriving Repr, DecidableEq

/-- `entryPointPatterns` of `detectEntryPoint`, in source order. -/
def entryPointPatterns : List EntryPattern := [
  ⟨"pages/_app.tsx", "next"⟩,
  ⟨"pages/_app.jsx", "next"⟩,
  ⟨"pages/index.tsx", "next"⟩,
  ⟨"pages/index.jsx", "next"⟩,
  ⟨"src/pages/_app.tsx", "next"⟩,
  ⟨"src/pages/index.tsx", "next"⟩,
  ⟨"src/App.tsx", "react"⟩,
  ⟨"src/main.tsx", "react"⟩,
  ⟨"src/main.jsx", "react"⟩,
  ⟨"src/app.vue", "vue"⟩,
  ⟨"src/main.ts", "vue"⟩,
  ⟨"src/index.ts", "node"⟩,
  ⟨"src/index.js", "node"⟩,
  ⟨"src/main.ts", "node"⟩,
  ⟨"src/main.js", "node"⟩,
  ⟨"src/app.ts", "node"⟩,
  ⟨"src/app.js", "node"⟩,
  ⟨"src/server.ts", "node"⟩,
  ⟨"src/server.js", "node"⟩,
  ⟨"index.ts", "node"⟩,
  ⟨"index.js", "node"⟩,
  ⟨"main.ts", "node"⟩,
  ⟨"main.js", "node"⟩,
  ⟨"app.ts", "node"⟩,
  ⟨"app.js", "node"⟩,
  ⟨"server.ts", "node"⟩,
  ⟨"server.js", "node"⟩,
  ⟨"src/__main__.py", "python"⟩,
  ⟨"src/main.py", "python"⟩,
  ⟨"src/app.py", "python"⟩,
  ⟨"__main__.py", "python"⟩,
  ⟨"main.py", "python"⟩,
  ⟨"app.py", "python"⟩,
  ⟨"run.py", "python"⟩,
  ⟨"wsgi.py", "python"⟩,
  ⟨"asgi.py", "python"⟩,
  ⟨"manage.py", "django"⟩,
  ⟨"src/main.rs", "rust"⟩,
  ⟨"src/lib.rs", "rust"⟩,
  ⟨"main.rs", "rust"⟩,
  ⟨"cmd/main.go", "go"⟩,
  ⟨"main.go", "go"⟩,
  ⟨"app.go", "go"⟩,
  ⟨"src/main/java/Main.java", "java"⟩,
  ⟨"src/main/kotlin/Main.kt", "kotlin"⟩,
  ⟨"src/main/scala/Main.scala", "scala"⟩,
  ⟨"Main.java", "java"⟩,
  ⟨"App.java", "java"⟩,
  ⟨"Program.cs", "csharp"⟩,
  ⟨"Startup.cs", "csharp"⟩,
  ⟨"src/Program.cs", "csharp"⟩]

/-- `frameworkConfigs` of `detectEntryPoint`, in source order. -/
def frameworkConfigs : List FrameworkConfig := [
  ⟨"next.config.js", "next", "pages/index"⟩,
  ⟨"vite.config.js", "vite", "src/main"⟩,
  ⟨"angular.json", "angular", "src/main.ts"⟩,
  ⟨"cargo.toml", "rust", "src/main.rs"⟩,
  ⟨"go.mod", "go", "main.go"⟩,
  ⟨"pom.xml", "java", "src/main/java/Main.java"⟩,
  ⟨"build.gradle", "java", "src/main/java/Main.java"⟩,
  ⟨"requirements.txt", "python", "main.py"⟩,
  ⟨"Pipfile", "python", "main.py"⟩,
  ⟨"pyproject.toml", "python", "main.py"⟩]

/-- The "entry marker" substrings of the heuristic content scan. -/
def entryMarkers : List String := [
  "function main",
  "def main",
  "public static void main",
  "fn main",
  "func main",
  "class Main",
  "export default",
  "module.exports",
  "createRoot",
  "ReactDOM.render",
  "if __name__ == \"__main__\"",
  "@SpringBootApplication"]

/-- Tier 2: framework-signature scan. For each table pair whose signature file
exists, return its implied entry file if that also exists. -/
def frameworkScan (fs : FS) : Option String :=
  frameworkConfigs.findSome? (fun config =>
    if fsAccess fs config.file then
      if fsAccess fs config.entry then some config.entry else none
    else none)

/-- Tier 3: package.json introspection. Fields `main`, `module`, `source`,
`browser`, then a quoted token extracted from the `start`/`dev` scripts; the
first candidate naming an existing path wins.  Read/parse failures make the
tier yield nothing. -/
def manifestScan (parse : ParseFn) (fs : FS) : Option String :=
  if fsAccess fs "package.json" then
    match fsLookup fs "package.json" with
    | none => none
    | some content =>
      match parse content with
      | none => none
      | some packageJson =>
        let possibleEntries :=
          ([packageJson.main, packageJson.module, packageJson.source,
            packageJson.browser,
            packageJson.scripts.start.bind extractQuoted,
            packageJson.scripts.dev.bind extractQuoted].filterMap id).filter
            (fun s => s != "")
        possibleEntries.findSome? (fun entry =>
          if fsAccess fs entry then some entry else none)
  else none

/-- Tier 4: conventional-path scan over `entryPointPatterns`. -/
def conventionalScan (fs : FS) : Option String :=
  entryPointPatterns.findSome? (fun pat =>
    if fsAccess fs pat.file then some pat.file else none)

/-- Does a heuristic-scan hit occur at this file: relative path not starting
with `.` and content containing one of the entry markers? -/
def scanHit (e : String × String) : Bool :=
  !(jsStartsWith e.1 ".") && entryMarkers.any (fun m => strContains e.2 m)

/-- Tier 5: heuristic content scan in directory-walk order. -/
def heuristicScan (fs : FS) : Option String :=
  (fs.files.find? scanHit).map (fun e => e.1)

/-- `detectEntryPoint`: the four tiers in source order, stopping at the first
hit. -/
def detectEntryPoint (parse : ParseFn) (fs : FS) : Option String :=
  match frameworkScan fs with
  | some entryPath => some entryPath
  | none =>
    match manifestScan parse fs with
    | some mainFile => some mainFile
    | none =>
      match conventionalScan fs with
      | some filePath => some filePath
      | none => heuristicScan fs

/-- The extension-to-command table of `getRunCommand` (the command templates,
with the file path substituted). -/
def runCommandTable (filePath : String) : List (String × String) :=
  let q : String := "\""
  let quoted := q ++ filePath ++ q
  let sq : String := String.mk [squote]
  [(".js", "node " ++ quoted),
   (".ts", "ts-node " ++ quoted),
   (".mjs", "node " ++ quoted),
   (".cjs", "node " ++ quoted),
   (".jsx", "node -r @babel/register " ++ quoted),
   (".tsx", "ts-node --compiler-options " ++ sq ++ "\x7b\"jsx\":\"react\"\x7d" ++ sq ++ " " ++ quoted),
   (".py", "python " ++ quoted),
   (".py3", "python3 " ++ quoted),
   (".pyw", "pythonw " ++ quoted),
   (".sh", "bash " ++ quoted),
   (".bash", "bash " ++ quoted),
   (".zsh", "zsh " ++ quoted),
   (".bat", quoted),
   (".cmd", quoted),
   (".ps1", "powershell -NoProfile -NonInteractive -ExecutionPolicy Bypass -File " ++ quoted),
   (".rb", "ruby " ++ quoted),
   (".php", "php " ++ quoted),
   (".pl", "perl " ++ quoted),
   (".r", "Rscript " ++ quoted),
   (".go", "go run " ++ quoted),
   (".java", "java " ++ quoted),
   (".groovy", "groovy " ++ quoted),
   (".scala", "scala " ++ quoted),
   (".kt", "kotlin " ++ quoted),
   (".kts", "kotlin " ++ quoted),
   (".cpp", "g++ " ++ quoted ++ " -o " ++ q ++ filePath ++ ".exe" ++ q ++ " && " ++ q ++ filePath ++ ".exe" ++ q),
   (".cc", "g++ " ++ quoted ++ " -o " ++ q ++ filePath ++ ".exe" ++ q ++ " && " ++ q ++ filePath ++ ".exe" ++ q),
   (".c", "gcc " ++ quoted ++ " -o " ++ q ++ filePath ++ ".exe" ++ q ++ " && " ++ q ++ filePath ++ ".exe" ++ q),
   (".rs", "rustc " ++ quoted ++ " -o " ++ q ++ filePath ++ ".exe" ++ q ++ " && " ++ q ++ filePath ++ ".exe" ++ q),
   (".fish", "fish " ++ quoted),
   (".tcsh", "tcsh " ++ quoted),
   (".ksh", "ksh " ++ quoted)]

/-- `getRunCommand`: `commands[extension] || null`. -/
def getRunCommand (extension filePath : String) : Option String :=
  ((runCommandTable filePath).find? (fun e => e.1 == extension)).map (fun e => e.2)

/-- The `cd "${workspacePath}" && ` prefix used for every setup command (and
for `npm install` in `setupNodeProject`). -/
def cdPrefix (workspacePath : String) : String :=
  "cd \"" ++ workspacePath ++ "\" && "

/-- The `cd "${workspacePath}" && ${command}` wrapper string. -/
def cdCmd (workspacePath command : String) : String :=
  cdPrefix workspacePath ++ command

/-- Resolution of the `executeCommand` promise: it resolves with the two
streams when there is no error or the error message contains `exit code 1`;
otherwise it rejects with the error. -/
def execResult (oracle : Oracle) (command : String) :
    Except String (String × String) :=
  let r := oracle command
  match r.err with
  | none => Except.ok (r.stdout, r.stderr)
  | some msg =>
    if strContains msg "exit code 1" then Except.ok (r.stdout, r.stderr)
    else Except.error msg

/-- `executeCommand`: spawn the command (recorded as an event) and deliver the
promise outcome. -/
def executeCommand (oracle : Oracle) (st : Wst) (command : String) :
    Wst × Except String (String × String) :=
  (emitCmd st command, execResult oracle command)

/-- `JSON.stringify(packageJson, null, 2)` of the fixed Node/Babel project
manifest written by `setupNodeProject`. -/
def packageJsonTemplate : String := String.intercalate "\n" [
  "\x7b",
  "  \"name\": \"shadow-workspace\",",
  "  \"version\": \"1.0.0\",",
  "  \"type\": \"module\",",
  "  \"dependencies\": \x7b",
  "    \"@babel/core\": \"^7.22.0\",",
  "    \"@babel/preset-react\": \"^7.22.0\",",
  "    \"@babel/preset-typescript\": \"^7.22.0\",",
  "    \"@babel/register\": \"^7.22.0\",",
  "    \"@babel/preset-env\": \"^7.22.0\",",
  "    \"ts-node\": \"^10.9.1\",",
  "    \"typescript\": \"^5.0.0\",",
  "    \"react\": \"^18.2.0\",",
  "    \"react-dom\": \"^18.2.0\"",
  "  \x7d",
  "\x7d"]

/-- `JSON.stringify(babelConfig, null, 2)` of the fixed Babel configuration
written by `setupNodeProject`. -/
def babelrcTemplate : String := String.intercalate "\n" [
  "\x7b",
  "  \"presets\": [",
  "    \"@babel/preset-env\",",
  "    \"@babel/preset-react\",",
  "    \"@babel/preset-typescript\"",
  "  ]",
  "\x7d"]

/-- `setupNodeProject`: overwrite package.json and .babelrc with the fixed
templates and run `npm install` (whose rejection propagates to the caller). -/
def setupNodeProject (oracle : Oracle) (workspacePath : String) (st : Wst) :
    Wst × Except String Unit :=
  let st := emitWrite st "package.json" packageJsonTemplate
  let st := emitWrite st ".babelrc" babelrcTemplate
  let r := executeCommand oracle st (cdCmd workspacePath "npm install")
  (r.1, r.2.map (fun _ => ()))

/-- A subdirectory entry of the package.json setup indicator. -/
structure SubDirSpec where
  path : String
  commands : List String
  deriving Repr, DecidableEq

/-- One entry of the `setupIndicators` table (the `runCommands` fields of the
source are never executed by the preparation pass and are omitted). -/
structure SetupIndicator where
  file : String
  commands : List String
  subDirs : List SubDirSpec
  deriving Repr, DecidableEq

/-- `setupIndicators` of `detectAndRunSetupCommands`, in source order. -/
def setupIndicators : List SetupIndicator := [
  ⟨"requirements.txt", ["pip install -r requirements.txt"], []⟩,
  ⟨"Pipfile", ["pipenv install"], []⟩,
  ⟨"package.json", ["npm install"],
    (["frontend", "client", "web", "ui"].map
      (fun dir => ⟨dir, ["cd " ++ dir ++ " && npm install"]⟩))⟩,
  ⟨"yarn.lock", ["yarn install"], []⟩,
  ⟨"pnpm-lock.yaml", ["pnpm install"], []⟩,
  ⟨"*.csproj", ["dotnet restore"], []⟩,
  ⟨"pom.xml", ["mvn install"], []⟩,
  ⟨"build.gradle", ["gradle build"], []⟩,
  ⟨"Cargo.toml", ["cargo build"], []⟩,
  ⟨"go.mod", ["go mod download"], []⟩]

/-- `matchesPattern`: exact filename or `*.`-suffix pattern. -/
def matchesPattern (filename pattern : String) : Bool :=
  if jsStartsWith pattern "*." then jsEndsWith filename (pattern.drop 1)
  else filename == pattern

/-- `findFiles`: recursive walk collecting the files whose basename matches. -/
def findFiles (fs : FS) (pattern : String) : List String :=
  (fs.files.filter (fun e => matchesPattern (basename e.1) pattern)).map
    (fun e => e.1)

/-- State of one preparation pass: world state plus the `commandsRun` set. -/
structure SetupSt where
  st : Wst
  ran : List String
  deriving Repr

/-- One guarded setup command: skipped when its string is in `commandsRun`;
otherwise executed (wrapped in the `cd` prefix) and recorded only on success
(failures are logged and swallowed). -/
def guardedRun (oracle : Oracle) (workspacePath key : String) (s : SetupSt) :
    SetupSt :=
  if s.ran.contains key then s
  else
    match executeCommand oracle s.st (cdCmd workspacePath key) with
    | (st, Except.ok _) => ⟨st, s.ran ++ [key]⟩
    | (st, Except.error _) => ⟨st, s.ran⟩

/-- Scripts of the package.json inside `dirPath` (empty on read/parse
failure). -/
def scriptsOfDir (parse : ParseFn) (fs : FS) (dirPath : String) : Scripts :=
  match fsLookup fs (dirPath ++ "/package.json") with
  | none => {}
  | some content =>
    match parse content with
    | none => {}
    | some packageJson => packageJson.scripts

/-- Build step of one conventional subdirectory: run
`cd <dir> && npm run build`/`build:prod` (guarded) when its package.json
declares a build script. -/
def runSubDirBuild (oracle : Oracle) (parse : ParseFn) (workspacePath : String)
    (fs : FS) (sd : SubDirSpec) (s : SetupSt) : SetupSt :=
  if optTruthy (scriptsOfDir parse fs sd.path).build ||
      optTruthy (scriptsOfDir parse fs sd.path).buildProd then
    guardedRun oracle workspacePath
      ("cd " ++ sd.path ++ " && npm run " ++
        (if optTruthy (scriptsOfDir parse fs sd.path).buildProd
         then "build:prod" else "build")) s
  else s

/-- Handling of one conventional subdirectory: if it exists, run its install
commands (guarded), then its build script if one is declared. -/
def runSubDir (oracle : Oracle) (parse : ParseFn) (workspacePath : String)
    (fs : FS) (sd : SubDirSpec) (s : SetupSt) : SetupSt :=
  if fsAccess fs sd.path then
    runSubDirBuild oracle parse workspacePath fs sd
      (sd.commands.foldl (fun s c => guardedRun oracle workspacePath c s) s)
  else s

/-- Root package.json build step of the preparation pass (the
`scripts.start`/`scripts.dev` bookkeeping of the source mutates only the
in-memory indicator table, which the pass never reads back, and is omitted). -/
def runRootBuild (oracle : Oracle) (parse : ParseFn) (workspacePath : String)
    (fs : FS) (s : SetupSt) : SetupSt :=
  match fsLookup fs "package.json" with
  | none => s
  | some content =>
    match parse content with
    | none => s
    | some packageJson =>
      if optTruthy packageJson.scripts.build then
        guardedRun oracle workspacePath "npm run build" s
      else s

/-- Final step of one indicator: the root package.json build check, which the
source runs only for the `package.json` indicator. -/
def runIndicatorTail (oracle : Oracle) (parse : ParseFn) (workspacePath : String)
    (fs : FS) (indicator : SetupIndicator) (s : SetupSt) : SetupSt :=
  if indicator.file == "package.json" then
    runRootBuild oracle parse workspacePath fs s
  else s

/-- Processing of one setup indicator whose signature file was found: its
install commands, then its subdirectory entries, then the root build check. -/
def runIndicator (oracle : Oracle) (parse : ParseFn) (workspacePath : String)
    (fs : FS) (s : SetupSt) (indicator : SetupIndicator) : SetupSt :=
  if (findFiles fs indicator.file).isEmpty then s
  else
    runIndicatorTail oracle parse workspacePath fs indicator
      (indicator.subDirs.foldl
        (fun s sd => runSubDir oracle parse workspacePath fs sd s)
        (indicator.commands.foldl
          (fun s c => guardedRun oracle workspacePath c s) s))

/-- `detectAndRunSetupCommands`: the whole preparation pass, starting from an
empty `commandsRun` set.  All step failures are swallowed, so the pass only
extends the event trace. -/
def detectAndRunSetupCommands (oracle : Oracle) (parse : ParseFn)
    (workspacePath : String) (fs : FS) (st : Wst) : Wst :=
  (setupIndicators.foldl (runIndicator oracle parse workspacePath fs) ⟨st, []⟩).st

/-- The validation error message of `runCode`. -/
def validationMsg : String := "Either code and filename or filepath must be provided"

/-- Result object returned by `runCode` on the non-throwing path. -/
structure RunResult where
  output : String
  error : String
  success : Bool
  entryPoint : String
  deriving Repr, DecidableEq

/-- Dependency-file writing phase (`options.dependencies` loop). -/
def writeDeps (opts : Options) (st : Wst) : Wst :=
  opts.dependencies.foldl (fun st dep => emitWrite st dep.filename dep.code) st

/-- Main-file phase: write `code` under `filename`, or adopt `filepath`, or
throw the validation error.  Returns the main file path. -/
def writeMainFile (opts : Options) (st : Wst) : Except String (Wst × String) :=
  if optTruthy opts.code && optTruthy opts.filename then
    Except.ok (emitWrite st (opts.filename.getD "") (opts.code.getD ""),
      opts.filename.getD "")
  else if optTruthy opts.filepath then
    Except.ok (st, opts.filepath.getD "")
  else Except.error validationMsg

/-- Setup phase: run the preparation pass unless `autoSetup === false`. -/
def setupPhase (oracle : Oracle) (parse : ParseFn) (workspacePath : String)
    (opts : Options) (st : Wst) : Wst :=
  if opts.autoSetup then
    detectAndRunSetupCommands oracle parse workspacePath st.fs st
  else st

/-- Entry-point choice of `runCode`: the explicit entry point if (truthily)
given, otherwise the detected entry point, otherwise the main file. -/
def resolveFileToRun (parse : ParseFn) (opts : Options) (fs : FS)
    (mainFilePath : String) : String :=
  if optTruthy opts.entryPoint then opts.entryPoint.getD ""
  else (detectEntryPoint parse fs).getD mainFilePath

/-- Everything `runCode` does after the main file is in place: setup pass,
entry-point resolution, command mapping, optional Node project setup, and the
execution itself.  Also returns a snapshot of the workspace filesystem at the
moment the run command is issued (`none` when execution was never reached). -/
def runCodeAfterMain (oracle : Oracle) (parse : ParseFn) (workspacePath : String)
    (opts : Options) (stIn : Wst) (mainFilePath : String) :
    Wst × Option FS × Except String RunResult :=
  let st := setupPhase oracle parse workspacePath opts stIn
  let fileToRun := resolveFileToRun parse opts st.fs mainFilePath
  let extension := toLowerCase (extname fileToRun)
  match getRunCommand extension fileToRun with
  | none => (st, none, Except.error ("Unsupported file type: " ++ extension))
  | some runCommand =>
    match (if extension == ".jsx" || extension == ".tsx" || extension == ".ts"
           then setupNodeProject oracle workspacePath st
           else (st, Except.ok ())) with
    | (st, Except.error e) => (st, none, Except.error e)
    | (st, Except.ok _) =>
      match executeCommand oracle st runCommand with
      | (stOut, Except.error e) => (stOut, some st.fs, Except.error e)
      | (stOut, Except.ok (stdout, stderr)) =>
        (stOut, some st.fs,
         Except.ok ⟨stdout, stderr, stderr == "" || jsTrim stderr == "",
           fileToRun⟩)

/-- The body of `runCode` (everything inside the `try`), threaded over a fresh
workspace. -/
def runCodeBody (oracle : Oracle) (parse : ParseFn) (workspacePath : String)
    (opts : Options) : Wst × Option FS × Except String RunResult :=
  match writeMainFile opts (writeDeps opts ⟨⟨[]⟩, []⟩) with
  | Except.error e => (writeDeps opts ⟨⟨[]⟩, []⟩, none, Except.error e)
  | Except.ok (st, mainFilePath) =>
    runCodeAfterMain oracle parse workspacePath opts st mainFilePath

/-- Everything `runCode` returns or leaves behind. -/
structure RunOutcome where
  result : Except String RunResult
  events : List Event
  wsExists : Bool
  execFs : Option FS
  deriving Repr

/-- `runCode`: create the workspace, run the body, and — in the `finally`
block — destroy the workspace whatever the outcome was (`fs.rm` with
`force: true`; a cleanup failure would be swallowed). -/
def runCode (h : Handler) (oracle : Oracle) (parse : ParseFn) (opts : Options) :
    Handler × RunOutcome :=
  let workspacePath := (createWorkspaceDirectory h).2
  let body := runCodeBody oracle parse workspacePath opts
  ((createWorkspaceDirectory h).1,
   { result := body.2.2,
     events := Event.createWs workspacePath :: body.1.events ++
       [Event.destroyWs workspacePath],
     wsExists := false,
     execFs := body.2.1 })

/-! ## Helper definitions for concrete instances -/

/-- A parse oracle that always fails (no package.json is ever consulted in the
instances using it). -/
def parse0 : ParseFn := fun _ => none

/-- A fresh handler rooted at `/base`. -/
def h0 : Handler := ⟨"/base", 0⟩

/-- An exec oracle under which every command succeeds with stdout `hi`. -/
def oracleOk : Oracle := fun _ => ⟨none, "hi", ""⟩

/-- An exec oracle modelling a wall-clock timeout: `exec` reports an error
whose message does not contain `exit code 1`, so the promise rejects. -/
def oracleTimeout : Oracle := fun _ => ⟨some "timed out", "", ""⟩

/-! ## Lemmas about the entry-point resolver -/

theorem frameworkScan_aux (fs : FS) :
    ∀ l : List FrameworkConfig,
      l.findSome? (fun config =>
        if fsAccess fs config.file then
          if fsAccess fs config.entry then some config.entry else none
        else none) =
      (l.find? (fun cf => fsAccess fs cf.file && fsAccess fs cf.entry)).map
        (fun cf => cf.entry)
  | [] => rfl
  | c :: l => by
    cases h1 : fsAccess fs c.file <;> cases h2 : fsAccess fs c.entry <;>
      simp [List.findSome?, List.find?, h1, h2, frameworkScan_aux fs l]

theorem frameworkScan_eq_find? (fs : FS) :
    frameworkScan fs =
      (frameworkConfigs.find?
        (fun cf => fsAccess fs cf.file && fsAccess fs cf.entry)).map
        (fun cf => cf.entry) :=
  frameworkScan_aux fs frameworkConfigs

theorem detectEntryPoint_framework (parse : ParseFn) (fs : FS) (e : String)
    (h : frameworkScan fs = some e) : detectEntryPoint parse fs = some e := by
  simp [detectEntryPoint, h]

theorem detectEntryPoint_manifest (parse : ParseFn) (fs : FS) (e : String)
    (h1 : frameworkScan fs = none) (h2 : manifestScan parse fs = some e) :
    detectEntryPoint parse fs = some e := by
  simp [detectEntryPoint, h1, h2]

theorem detectEntryPoint_conventional (parse : ParseFn) (fs : FS) (e : String)
    (h1 : frameworkScan fs = none) (h2 : manifestScan parse fs = none)
    (h3 : conventionalScan fs = some e) : detectEntryPoint parse fs = some e := by
  simp [detectEntryPoint, h1, h2, h3]

theorem detectEntryPoint_heuristic (parse : ParseFn) (fs : FS)
    (h1 : frameworkScan fs = none) (h2 : manifestScan parse fs = none)
    (h3 : conventionalScan fs = none) :
    detectEntryPoint parse fs = heuristicScan fs := by
  simp [detectEntryPoint, h1, h2, h3]

/-- The workspace holding only `main.py`. -/
def fsMainPy : FS := ⟨[("main.py", "print(1)")]⟩

/-! ## Claim theorems about entry-point detection -/

/-- C4: entry-point detection applies its tiers in strict priority order and
stops at the first hit — framework-signature table, then package-manifest
introspection, then conventional-path list, then heuristic content scan — and
a workspace containing only `main.py` resolves to `main.py` via the
conventional-path tier (the earlier tiers yield nothing there). -/
theorem detect_tier_order :
    (∀ (parse : ParseFn) (fs : FS) (e : String),
      frameworkScan fs = some e → detectEntryPoint parse fs = some e) ∧
    (∀ (parse : ParseFn) (fs : FS) (e : String),
      frameworkScan fs = none → manifestScan parse fs = some e →
      detectEntryPoint parse fs = some e) ∧
    (∀ (parse : ParseFn) (fs : FS) (e : String),
      frameworkScan fs = none → manifestScan parse fs = none →
      conventionalScan fs = some e → detectEntryPoint parse fs = some e) ∧
    (∀ (parse : ParseFn) (fs : FS),
      frameworkScan fs = none → manifestScan parse fs = none →
      conventionalScan fs = none →
      detectEntryPoint parse fs = heuristicScan fs) ∧
    (∀ parse : ParseFn,
      frameworkScan fsMainPy = none ∧ manifestScan parse fsMainPy = none ∧
      conventionalScan fsMainPy = some "main.py" ∧
      detectEntryPoint parse fsMainPy = some "main.py") :=
  ⟨detectEntryPoint_framework, detectEntryPoint_manifest,
   detectEntryPoint_conventional, detectEntryPoint_heuristic,
   fun _ => ⟨rfl, rfl, rfl, rfl⟩⟩

/-- C4 witness: the conventional-path conjunct applied to the `main.py`
workspace with concrete tier hypotheses. -/
theorem detect_tier_order_witness :
    detectEntryPoint parse0 fsMainPy = some "main.py" :=
  detect_tier_order.2.2.1 parse0 fsMainPy "main.py" rfl rfl rfl

/-- C5: whenever some framework-signature pair of the static table has both
its signature file and its implied entry file present, resolution returns the
entry of the first such pair (table order breaking ties, `find?` semantics),
for every package-manifest parse — so a manifest start script naming a
different existing file cannot override it. -/
theorem framework_first_match (parse : ParseFn) (fs : FS) (c : FrameworkConfig)
    (h : frameworkConfigs.find?
      (fun cf => fsAccess fs cf.file && fsAccess fs cf.entry) = some c) :
    frameworkScan fs = some c.entry ∧ detectEntryPoint parse fs = some c.entry := by
  have hs : frameworkScan fs = some c.entry := by
    rw [frameworkScan_eq_find?, h]; rfl
  exact ⟨hs, detectEntryPoint_framework parse fs c.entry hs⟩

/-- A workspace with a framework signature (`angular.json`), its implied entry
(`src/main.ts`), and a package.json whose start script names another existing
file (`server.js`). -/
def fsFramework : FS :=
  ⟨[("angular.json", ""), ("src/main.ts", "x"), ("package.json", "rootpkg"),
    ("server.js", "boom")]⟩

/-- Parse oracle for `fsFramework`: its package.json declares
`"start": "node \"server.js\""`. -/
def parseFramework : ParseFn := fun s =>
  if s == "rootpkg" then
    some { scripts := { start := some "node \"server.js\"" } }
  else none

/-- C5 witness: on `fsFramework` the framework tier wins with `src/main.ts`,
although the manifest tier would have resolved `server.js`. -/
theorem framework_first_match_witness :
    (frameworkScan fsFramework = some "src/main.ts" ∧
      detectEntryPoint parseFramework fsFramework = some "src/main.ts") ∧
    manifestScan parseFramework fsFramework = some "server.js" :=
  ⟨framework_first_match parseFramework fsFramework
    ⟨"angular.json", "angular", "src/main.ts"⟩ rfl, rfl⟩

/-- The workspace whose only marker-bearing file is hidden inside a
subdirectory. -/
def fsHidden : FS := ⟨[("sub/.hidden.js", "function main")]⟩

/-- C9 counterexample: the heuristic scan returns `sub/.hidden.js` — a hidden
file (its basename starts with `.`) — because the skip test looks at the start
of the workspace-relative path, refuting "hidden files are never returned". -/
theorem heuristic_hidden_counterexample :
    detectEntryPoint parse0 fsHidden = some "sub/.hidden.js" ∧
    jsStartsWith (basename "sub/.hidden.js") "." = true :=
  ⟨rfl, rfl⟩

/-- C9 (amended): when all earlier tiers miss, detection returns the heuristic
scan's result: the first file in directory-walk order whose workspace-relative
path does not start with `.` and whose content contains an entry marker;
files whose relative path starts with `.` are never returned (hidden files in
subdirectories can be). -/
theorem heuristic_scan_spec (parse : ParseFn) (fs : FS)
    (h1 : frameworkScan fs = none) (h2 : manifestScan parse fs = none)
    (h3 : conventionalScan fs = none) :
    detectEntryPoint parse fs = heuristicScan fs ∧
    ∀ p, heuristicScan fs = some p →
      jsStartsWith p "." = false ∧
      ∃ pre c post, fs.files = pre ++ (p, c) :: post ∧ scanHit (p, c) = true ∧
        ∀ e ∈ pre, scanHit e = false := by
  refine ⟨detectEntryPoint_heuristic parse fs h1 h2 h3, ?_⟩
  intro p hp
  unfold heuristicScan at hp
  rcases Option.map_eq_some'.mp hp with ⟨e, hfind, hfst⟩
  rcases List.find?_eq_some.mp hfind with ⟨hhit, pre, post, hsplit, hpre⟩
  subst hfst
  constructor
  · have := (Bool.and_eq_true _ _).mp hhit
    simpa using this.1
  · exact ⟨pre, e.2, post, by simpa using hsplit, hhit,
      fun a ha => by simpa using hpre a ha⟩

/-- A workspace whose first heuristic hit is a non-hidden file in a
subdirectory. -/
def fsScanW : FS := ⟨[("notes.txt", "nothing"), ("sub/x.js", "function main")]⟩

/-- C9 witness: a workspace where the scan's first hit is a non-hidden file in
a subdirectory. -/
theorem heuristic_scan_spec_witness :
    detectEntryPoint parse0 fsScanW = heuristicScan fsScanW :=
  (heuristic_scan_spec parse0 fsScanW rfl rfl rfl).1

/-! ## Event-trace machinery for the preparation pass -/

/-- Concatenation of the images of a list (used for command segments). -/
def catMap {α : Type} (f : α → List String) : List α → List String
  | [] => []
  | a :: l => f a ++ catMap f l

theorem cmdsOf_append (l1 l2 : List Event) :
    cmdsOf (l1 ++ l2) = cmdsOf l1 ++ cmdsOf l2 := by
  simp [cmdsOf]

theorem catMap_singleton {α : Type} (g : α → String) :
    ∀ l : List α, catMap (fun a => [g a]) l = l.map g
  | [] => rfl
  | a :: l => by simp [catMap, catMap_singleton g l]

/-- The setup pass extends the trace by events that are all writes or
commands, whose command strings form a sublist of `seg`, without touching the
workspace filesystem. -/
def SegExt (seg : List String) (s s' : SetupSt) : Prop :=
  ∃ δ, s'.st.events = s.st.events ++ δ ∧ List.Sublist (cmdsOf δ) seg ∧
    (∀ e ∈ δ, isWriteOrRun e = true) ∧ s'.st.fs = s.st.fs

theorem SegExt.segSelf (seg : List String) (s : SetupSt) : SegExt seg s s :=
  ⟨[], by simp, List.nil_sublist seg, by simp, rfl⟩

theorem SegExt.segMono {seg seg' : List String} {s s' : SetupSt}
    (h : SegExt seg s s') (hs : List.Sublist seg seg') : SegExt seg' s s' := by
  obtain ⟨δ, h1, h2, h3, h4⟩ := h
  exact ⟨δ, h1, h2.trans hs, h3, h4⟩

theorem SegExt.segComp {seg1 seg2 : List String} {s1 s2 s3 : SetupSt}
    (h : SegExt seg1 s1 s2) (h' : SegExt seg2 s2 s3) :
    SegExt (seg1 ++ seg2) s1 s3 := by
  obtain ⟨δ, h1, h2, h3, h4⟩ := h
  obtain ⟨δ', h1', h2', h3', h4'⟩ := h'
  refine ⟨δ ++ δ', by simp [h1', h1], ?_, ?_, h4'.trans h4⟩
  · rw [cmdsOf_append]; exact h2.append h2'
  · intro e he
    rcases List.mem_append.mp he with h | h
    · exact h3 e h
    · exact h3' e h

theorem emitCmd_segExt (st : Wst) (c : String) (ran ran' : List String) :
    SegExt [c] ⟨st, ran⟩ ⟨emitCmd st c, ran'⟩ :=
  ⟨[Event.runCmd c], by simp [emitCmd], List.Sublist.refl _,
    by simp [isWriteOrRun], by simp [emitCmd]⟩

theorem guardedRun_segExt (oracle : Oracle) (ws key : String) (s : SetupSt) :
    SegExt [cdCmd ws key] s (guardedRun oracle ws key s) := by
  unfold guardedRun executeCommand
  split
  · exact SegExt.segSelf _ _
  · cases hr : execResult oracle (cdCmd ws key) with
    | ok v => simpa [hr] using emitCmd_segExt s.st (cdCmd ws key) s.ran _
    | error e => simpa [hr] using emitCmd_segExt s.st (cdCmd ws key) s.ran _

theorem foldl_segExt {α : Type} (f : SetupSt → α → SetupSt)
    (seg : α → List String) (hf : ∀ s a, SegExt (seg a) s (f s a)) :
    ∀ (l : List α) (s : SetupSt), SegExt (catMap seg l) s (l.foldl f s)
  | [], s => SegExt.segSelf _ _
  | a :: l, s => (hf s a).segComp (foldl_segExt f seg hf l (f s a))

theorem cmds_foldl_segExt (oracle : Oracle) (ws : String) (cmds : List String)
    (s : SetupSt) :
    SegExt (cmds.map (cdCmd ws)) s
      (cmds.foldl (fun s c => guardedRun oracle ws c s) s) := by
  have := foldl_segExt (fun s c => guardedRun oracle ws c s)
    (fun c => [cdCmd ws c]) (fun s c => guardedRun_segExt oracle ws c s) cmds s
  rwa [catMap_singleton] at this

/-- Candidate commands a subdirectory entry can contribute: its install
commands, then one of the two build variants. -/
def sdSeg (ws : String) (sd : SubDirSpec) : List String :=
  sd.commands.map (cdCmd ws) ++
    [cdCmd ws ("cd " ++ sd.path ++ " && npm run " ++ "build:prod"),
     cdCmd ws ("cd " ++ sd.path ++ " && npm run " ++ "build")]

theorem runSubDirBuild_segExt (oracle : Oracle) (parse : ParseFn) (ws : String)
    (fs : FS) (sd : SubDirSpec) (s : SetupSt) :
    SegExt [cdCmd ws ("cd " ++ sd.path ++ " && npm run " ++ "build:prod"),
            cdCmd ws ("cd " ++ sd.path ++ " && npm run " ++ "build")] s
      (runSubDirBuild oracle parse ws fs sd s) := by
  unfold runSubDirBuild
  split
  · split
    · exact (guardedRun_segExt oracle ws _ s).segMono
        (List.Sublist.cons₂ _ (List.nil_sublist _))
    · exact (guardedRun_segExt oracle ws _ s).segMono
        (List.Sublist.cons _ (List.Sublist.refl _))
  · exact SegExt.segSelf _ _

theorem runSubDir_segExt (oracle : Oracle) (parse : ParseFn) (ws : String)
    (fs : FS) (sd : SubDirSpec) (s : SetupSt) :
    SegExt (sdSeg ws sd) s (runSubDir oracle parse ws fs sd s) := by
  unfold runSubDir
  split
  · exact (cmds_foldl_segExt oracle ws sd.commands s).segComp
      (runSubDirBuild_segExt oracle parse ws fs sd _)
  · exact SegExt.segSelf _ _

theorem runRootBuild_segExt (oracle : Oracle) (parse : ParseFn) (ws : String)
    (fs : FS) (s : SetupSt) :
    SegExt [cdCmd ws "npm run build"] s (runRootBuild oracle parse ws fs s) := by
  unfold runRootBuild
  split
  · exact SegExt.segSelf _ _
  · split
    · exact SegExt.segSelf _ _
    · split
      · exact guardedRun_segExt oracle ws "npm run build" s
      · exact SegExt.segSelf _ _

/-- Candidate commands one indicator can contribute. -/
def indSeg (ws : String) (ind : SetupIndicator) : List String :=
  ind.commands.map (cdCmd ws) ++ catMap (sdSeg ws) ind.subDirs ++
    (if ind.file == "package.json" then [cdCmd ws "npm run build"] else [])

theorem runIndicatorTail_segExt (oracle : Oracle) (parse : ParseFn)
    (ws : String) (fs : FS) (ind : SetupIndicator) (s : SetupSt) :
    SegExt (if ind.file == "package.json" then [cdCmd ws "npm run build"]
            else []) s (runIndicatorTail oracle parse ws fs ind s) := by
  unfold runIndicatorTail
  split
  · exact runRootBuild_segExt oracle parse ws fs s
  · exact SegExt.segSelf _ _

theorem runIndicator_segExt (oracle : Oracle) (parse : ParseFn) (ws : String)
    (fs : FS) (s : SetupSt) (ind : SetupIndicator) :
    SegExt (indSeg ws ind) s (runIndicator oracle parse ws fs s ind) := by
  unfold runIndicator
  split
  · exact SegExt.segSelf _ _
  · exact ((cmds_foldl_segExt oracle ws ind.commands s).segComp
      ((foldl_segExt _ _ (fun s sd => runSubDir_segExt oracle parse ws fs sd s)
        ind.subDirs _).segComp
        (runIndicatorTail_segExt oracle parse ws fs ind _))).segMono
      (by simp [indSeg])

/-- The whole preparation pass, as trace extension. -/
theorem detectAndRunSetup_extends (oracle : Oracle) (parse : ParseFn)
    (ws : String) (fs : FS) (st : Wst) :
    ∃ δ, (detectAndRunSetupCommands oracle parse ws fs st).events =
        st.events ++ δ ∧
      List.Sublist (cmdsOf δ) (catMap (indSeg ws) setupIndicators) ∧
      (∀ e ∈ δ, isWriteOrRun e = true) ∧
      (detectAndRunSetupCommands oracle parse ws fs st).fs = st.fs := by
  have h := foldl_segExt (runIndicator oracle parse ws fs) (indSeg ws)
    (runIndicator_segExt oracle parse ws fs) setupIndicators ⟨st, []⟩
  obtain ⟨δ, h1, h2, h3, h4⟩ := h
  exact ⟨δ, h1, h2, h3, h4⟩

/-- All candidate command strings of one preparation pass, without the
`cd "${workspacePath}" && ` prefix, in pass order. -/
def rawCands : List String := [
  "pip install -r requirements.txt",
  "pipenv install",
  "npm install",
  "cd frontend && npm install",
  "cd frontend && npm run build:prod",
  "cd frontend && npm run build",
  "cd client && npm install",
  "cd client && npm run build:prod",
  "cd client && npm run build",
  "cd web && npm install",
  "cd web && npm run build:prod",
  "cd web && npm run build",
  "cd ui && npm install",
  "cd ui && npm run build:prod",
  "cd ui && npm run build",
  "npm run build",
  "yarn install",
  "pnpm install",
  "dotnet restore",
  "mvn install",
  "gradle build",
  "cargo build",
  "go mod download"]

theorem allSeg_eq (ws : String) :
    catMap (indSeg ws) setupIndicators = rawCands.map (cdCmd ws) := by rfl

theorem rawCands_nodup : rawCands.Nodup := by decide

theorem cdCmd_injective (ws : String) : Function.Injective (cdCmd ws) := by
  intro a b h
  unfold cdCmd at h
  have hd := congrArg String.data h
  simp only [String.data_append] at hd
  have hab : a.data = b.data := List.append_cancel_left hd
  cases a; cases b; exact congrArg String.mk hab

/-! ## Event-trace machinery for the whole request body -/

/-- `st'` extends `st`'s trace by file writes and command spawns only. -/
def EvExt (st st' : Wst) : Prop :=
  ∃ δ, st'.events = st.events ++ δ ∧ ∀ e ∈ δ, isWriteOrRun e = true

theorem EvExt.evSelf (st : Wst) : EvExt st st := ⟨[], by simp, by simp⟩

theorem EvExt.evComp {st1 st2 st3 : Wst} (h : EvExt st1 st2) (h' : EvExt st2 st3) :
    EvExt st1 st3 := by
  obtain ⟨δ, h1, h2⟩ := h
  obtain ⟨δ', h1', h2'⟩ := h'
  refine ⟨δ ++ δ', by simp [h1', h1], ?_⟩
  intro e he
  rcases List.mem_append.mp he with h | h
  · exact h2 e h
  · exact h2' e h

theorem emitWrite_evExt (st : Wst) (p c : String) : EvExt st (emitWrite st p c) :=
  ⟨[Event.writeFile p c], by simp [emitWrite], by simp [isWriteOrRun]⟩

theorem emitCmd_evExt (st : Wst) (c : String) : EvExt st (emitCmd st c) :=
  ⟨[Event.runCmd c], by simp [emitCmd], by simp [isWriteOrRun]⟩

theorem foldl_emitWrite_events :
    ∀ (l : List DepFile) (st : Wst),
      (l.foldl (fun st dep => emitWrite st dep.filename dep.code) st).events =
        st.events ++ l.map (fun d => Event.writeFile d.filename d.code)
  | [], st => by simp
  | d :: l, st => by
    rw [List.foldl_cons, foldl_emitWrite_events l (emitWrite st d.filename d.code)]
    simp [emitWrite]

theorem foldl_emitWrite_fs :
    ∀ (l : List DepFile) (st : Wst),
      (l.foldl (fun st dep => emitWrite st dep.filename dep.code) st).fs =
        l.foldl (fun fs d => fsWrite fs d.filename d.code) st.fs
  | [], _ => rfl
  | d :: l, st => by
    rw [List.foldl_cons, foldl_emitWrite_fs l (emitWrite st d.filename d.code)]
    rfl

theorem writeDeps_events (opts : Options) (st : Wst) :
    (writeDeps opts st).events =
      st.events ++ opts.dependencies.map (fun d => Event.writeFile d.filename d.code) :=
  foldl_emitWrite_events opts.dependencies st

theorem writeDeps_evExt (opts : Options) (st : Wst) : EvExt st (writeDeps opts st) :=
  ⟨opts.dependencies.map (fun d => Event.writeFile d.filename d.code),
   writeDeps_events opts st, by
    intro e he
    rcases List.mem_map.mp he with ⟨d, -, rfl⟩
    rfl⟩

/-- Workspace filesystem after the dependency writes of a request. -/
def depsFs (opts : Options) : FS :=
  opts.dependencies.foldl (fun fs d => fsWrite fs d.filename d.code) ⟨[]⟩

/-- Workspace filesystem after dependency and main-file writes (the inline
code form). -/
def mainFs (opts : Options) : FS :=
  fsWrite (depsFs opts) (opts.filename.getD "") (opts.code.getD "")

/-- World state right after the main-file write (the inline code form). -/
def stAfterMain (opts : Options) : Wst :=
  ⟨mainFs opts,
   opts.dependencies.map (fun d => Event.writeFile d.filename d.code) ++
     [Event.writeFile (opts.filename.getD "") (opts.code.getD "")]⟩

theorem writeMain_phase (opts : Options) (hc : optTruthy opts.code = true)
    (hf : optTruthy opts.filename = true) :
    writeMainFile opts (writeDeps opts ⟨⟨[]⟩, []⟩) =
      Except.ok (stAfterMain opts, opts.filename.getD "") := by
  unfold writeMainFile
  rw [if_pos (by simp [hc, hf])]
  have hfs : (writeDeps opts ⟨⟨[]⟩, []⟩).fs = depsFs opts :=
    foldl_emitWrite_fs opts.dependencies ⟨⟨[]⟩, []⟩
  have hev : (writeDeps opts ⟨⟨[]⟩, []⟩).events =
      opts.dependencies.map (fun d => Event.writeFile d.filename d.code) := by
    simpa using writeDeps_events opts ⟨⟨[]⟩, []⟩
  simp [emitWrite, stAfterMain, mainFs, hfs, hev]

theorem writeMainFile_evExt (opts : Options) (st st' : Wst) (m : String)
    (h : writeMainFile opts st = Except.ok (st', m)) : EvExt st st' := by
  unfold writeMainFile at h
  split at h
  · simp only [Except.ok.injEq, Prod.mk.injEq] at h
    exact h.1 ▸ emitWrite_evExt st _ _
  · split at h
    · simp only [Except.ok.injEq, Prod.mk.injEq] at h
      exact h.1 ▸ EvExt.evSelf st
    · exact Except.noConfusion h

theorem writeMainFile_fs (opts : Options) (st st' : Wst) (m : String)
    (h : writeMainFile opts st = Except.ok (st', m)) :
    st'.fs = st.fs ∨
      st'.fs = fsWrite st.fs (opts.filename.getD "") (opts.code.getD "") := by
  unfold writeMainFile at h
  split at h
  · simp only [Except.ok.injEq, Prod.mk.injEq] at h
    right; rw [← h.1]; rfl
  · split at h
    · simp only [Except.ok.injEq, Prod.mk.injEq] at h
      left; rw [← h.1]
    · exact Except.noConfusion h

theorem setupPhase_extends (oracle : Oracle) (parse : ParseFn) (ws : String)
    (opts : Options) (st : Wst) :
    EvExt st (setupPhase oracle parse ws opts st) ∧
      (setupPhase oracle parse ws opts st).fs = st.fs := by
  unfold setupPhase
  split
  · obtain ⟨δ, h1, -, h3, h4⟩ := detectAndRunSetup_extends oracle parse ws st.fs st
    exact ⟨⟨δ, h1, h3⟩, h4⟩
  · exact ⟨EvExt.evSelf st, rfl⟩

theorem setupNodeProject_fst (oracle : Oracle) (ws : String) (st : Wst) :
    (setupNodeProject oracle ws st).1 =
      emitCmd (emitWrite (emitWrite st "package.json" packageJsonTemplate)
        ".babelrc" babelrcTemplate) (cdCmd ws "npm install") := rfl

theorem setupNodeProject_snd (oracle : Oracle) (ws : String) (st : Wst) :
    (setupNodeProject oracle ws st).2 =
      (execResult oracle (cdCmd ws "npm install")).map (fun _ => ()) := rfl

theorem setupNodeProject_evExt (oracle : Oracle) (ws : String) (st : Wst) :
    EvExt st (setupNodeProject oracle ws st).1 := by
  rw [setupNodeProject_fst]
  exact ((emitWrite_evExt st _ _).evComp (emitWrite_evExt _ _ _)).evComp
    (emitCmd_evExt _ _)

theorem runCodeAfterMain_evExt (oracle : Oracle) (parse : ParseFn) (ws : String)
    (opts : Options) (st : Wst) (m : String) :
    EvExt st (runCodeAfterMain oracle parse ws opts st m).1 := by
  have h1 := setupPhase_extends oracle parse ws opts st
  simp only [runCodeAfterMain]
  split
  · exact h1.1
  · rename_i c heq0
    split
    · rename_i stN e heq
      split at heq
      · have hst : (setupNodeProject oracle ws
            (setupPhase oracle parse ws opts st)).1 = stN :=
          congrArg Prod.fst heq
        exact h1.1.evComp (hst ▸ setupNodeProject_evExt oracle ws _)
      · have hst : setupPhase oracle parse ws opts st = stN :=
          congrArg Prod.fst heq
        exact hst ▸ h1.1
    · rename_i stN a heq
      have h2 : EvExt st stN := by
        split at heq
        · have hst : (setupNodeProject oracle ws
              (setupPhase oracle parse ws opts st)).1 = stN :=
            congrArg Prod.fst heq
          exact h1.1.evComp (hst ▸ setupNodeProject_evExt oracle ws _)
        · have hst : setupPhase oracle parse ws opts st = stN :=
            congrArg Prod.fst heq
          exact hst ▸ h1.1
      rcases hr : execResult oracle c with ⟨out, err⟩ | e <;>
        · simp only [executeCommand, hr]
          exact h2.evComp (emitCmd_evExt stN c)

theorem runCodeBody_evExt (oracle : Oracle) (parse : ParseFn) (ws : String)
    (opts : Options) :
    EvExt ⟨⟨[]⟩, []⟩ (runCodeBody oracle parse ws opts).1 := by
  unfold runCodeBody
  split
  · exact writeDeps_evExt opts _
  · next st m heq =>
    exact (writeDeps_evExt opts _).evComp
      ((writeMainFile_evExt opts _ st m heq).evComp
        (runCodeAfterMain_evExt oracle parse ws opts st m))

/-! ## Claim theorems: cleanup and write order -/

/-- C1: every `runCode` call opens by creating its workspace and closes by
destroying that same workspace — on every exit path (success, classified
failure, and every modelled exception: validation, setup, entry-point
resolution, command mapping, execution), for every request, exec oracle and
parse oracle; nothing after the destruction touches the workspace, and the
workspace no longer exists when the call completes. -/
theorem runCode_cleanup (h : Handler) (oracle : Oracle) (parse : ParseFn)
    (opts : Options) :
    ∃ ws mid,
      (runCode h oracle parse opts).2.events =
        Event.createWs ws :: mid ++ [Event.destroyWs ws] ∧
      (∀ e ∈ mid, isWriteOrRun e = true) ∧
      (runCode h oracle parse opts).2.wsExists = false := by
  obtain ⟨δ, h1, h2⟩ :=
    runCodeBody_evExt oracle parse (createWorkspaceDirectory h).2 opts
  refine ⟨(createWorkspaceDirectory h).2,
    (runCodeBody oracle parse (createWorkspaceDirectory h).2 opts).1.events,
    rfl, ?_, rfl⟩
  intro e he
  rw [h1] at he
  exact h2 e (by simpa using he)

/-- C7: for every request with (truthy) inline code and filename, the trace
begins with workspace creation, then the dependency-file writes in request
order, then the main-file write — so every dependency is written before the
main file, and the main file is in place before any later step (in particular
before any setup or run command, which can only occur in the remaining
trace). -/
theorem runCode_write_order (h : Handler) (oracle : Oracle) (parse : ParseFn)
    (opts : Options) (hc : optTruthy opts.code = true)
    (hf : optTruthy opts.filename = true) :
    ∃ ws rest,
      (runCode h oracle parse opts).2.events =
        Event.createWs ws ::
          (opts.dependencies.map (fun d => Event.writeFile d.filename d.code) ++
            (Event.writeFile (opts.filename.getD "") (opts.code.getD "") ::
              rest)) := by
  have hbody : runCodeBody oracle parse (createWorkspaceDirectory h).2 opts =
      runCodeAfterMain oracle parse (createWorkspaceDirectory h).2 opts
        (stAfterMain opts) (opts.filename.getD "") := by
    unfold runCodeBody
    rw [writeMain_phase opts hc hf]
  obtain ⟨δ, hδ, -⟩ := runCodeAfterMain_evExt oracle parse
    (createWorkspaceDirectory h).2 opts (stAfterMain opts) (opts.filename.getD "")
  refine ⟨(createWorkspaceDirectory h).2,
    δ ++ [Event.destroyWs (createWorkspaceDirectory h).2], ?_⟩
  show Event.createWs (createWorkspaceDirectory h).2 ::
      (runCodeBody oracle parse (createWorkspaceDirectory h).2 opts).1.events ++
      [Event.destroyWs (createWorkspaceDirectory h).2] = _
  rw [hbody, hδ]
  simp [stAfterMain]

/-- Request with one dependency file and an inline Python main file. -/
def opts7 : Options :=
  ⟨some "print(1)", some "a.py", none, [⟨"lib.py", "x"⟩], none, false⟩

/-- C7 witness: the write-order theorem at a concrete request with one
dependency. -/
theorem runCode_write_order_witness :
    ∃ ws rest,
      (runCode h0 oracleOk parse0 opts7).2.events =
        Event.createWs ws ::
          (opts7.dependencies.map (fun d => Event.writeFile d.filename d.code) ++
            (Event.writeFile (opts7.filename.getD "") (opts7.code.getD "") ::
              rest)) :=
  runCode_write_order h0 oracleOk parse0 opts7 rfl rfl

/-! ## Result-shape lemmas -/

theorem writeMain_error (opts : Options)
    (h1 : (optTruthy opts.code && optTruthy opts.filename) = false)
    (h2 : optTruthy opts.filepath = false) :
    writeMainFile opts (writeDeps opts ⟨⟨[]⟩, []⟩) =
      Except.error validationMsg := by
  unfold writeMainFile
  rw [if_neg (by simp [h1]), if_neg (by simp [h2])]

theorem cmdsOf_writes :
    ∀ l : List DepFile,
      cmdsOf (l.map (fun d => Event.writeFile d.filename d.code)) = []
  | [] => rfl
  | d :: l => by simpa [cmdsOf] using cmdsOf_writes l

theorem resolveFileToRun_explicit (parse : ParseFn) (opts : Options) (fs : FS)
    (m : String) (hep : optTruthy opts.entryPoint = true) :
    resolveFileToRun parse opts fs m = opts.entryPoint.getD "" := by
  simp [resolveFileToRun, hep]

theorem execResult_of_none (oracle : Oracle) (cmd : String)
    (h : (oracle cmd).err = none) :
    execResult oracle cmd = Except.ok ((oracle cmd).stdout, (oracle cmd).stderr) := by
  simp only [execResult]
  rw [h]

theorem execResult_of_reject (oracle : Oracle) (cmd msg : String)
    (h : (oracle cmd).err = some msg) (hm : strContains msg "exit code 1" = false) :
    execResult oracle cmd = Except.error msg := by
  simp only [execResult]
  rw [h]
  simp [hm]

/-- Outcome of the tail of the pipeline when the resolved entry maps to a run
command and is not one of the Node-setup extensions: the result is exactly the
promise outcome of that command. -/
theorem runCodeAfterMain_result (oracle : Oracle) (parse : ParseFn)
    (ws : String) (opts : Options) (stIn : Wst) (m : String) (cmd : String)
    (hcmd : getRunCommand
      (toLowerCase (extname (resolveFileToRun parse opts stIn.fs m)))
      (resolveFileToRun parse opts stIn.fs m) = some cmd)
    (hnb : (toLowerCase (extname (resolveFileToRun parse opts stIn.fs m)) == ".jsx" ||
            toLowerCase (extname (resolveFileToRun parse opts stIn.fs m)) == ".tsx" ||
            toLowerCase (extname (resolveFileToRun parse opts stIn.fs m)) == ".ts") = false) :
    (runCodeAfterMain oracle parse ws opts stIn m).2.2 =
      (match execResult oracle cmd with
       | Except.ok (out, err) =>
         Except.ok ⟨out, err, err == "" || jsTrim err == "",
           resolveFileToRun parse opts stIn.fs m⟩
       | Except.error e => Except.error e) := by
  simp only [runCodeAfterMain]
  rw [(setupPhase_extends oracle parse ws opts stIn).2, hcmd, hnb]
  rcases hr : execResult oracle cmd with ⟨out, err⟩ | e <;>
    simp [executeCommand, hr]

/-! ## Claim theorems: result shape, timeouts, success classification,
validation -/

/-- Request with inline code `print(1)` in `a.py`, auto-setup disabled. -/
def optsPy : Options := ⟨some "print(1)", some "a.py", none, [], none, false⟩

/-- C2 counterexample: under a timeout (exec reports an error whose message
does not contain `exit code 1`), `runCode` raises (the rejection propagates
out of the call after cleanup) instead of returning a result object — and no
distinct timeout result kind exists anywhere in the pipeline. -/
theorem timeout_raises_counterexample :
    (runCode h0 oracleTimeout parse0 optsPy).2.result =
      Except.error "timed out" := rfl

/-- C2 (amended): for a valid inline request with an explicit entry point
whose extension maps to a run command outside the Node-setup set, `runCode`
returns a result object with both streams populated exactly when the exec
callback reports no error (or one mentioning `exit code 1`); when exec rejects
— timeouts included — the error propagates out of `runCode` instead. -/
theorem runCode_result_shape (h : Handler) (oracle : Oracle) (parse : ParseFn)
    (opts : Options) (cmd : String)
    (hc : optTruthy opts.code = true) (hf : optTruthy opts.filename = true)
    (hep : optTruthy opts.entryPoint = true)
    (hnb : (toLowerCase (extname (opts.entryPoint.getD "")) == ".jsx" ||
            toLowerCase (extname (opts.entryPoint.getD "")) == ".tsx" ||
            toLowerCase (extname (opts.entryPoint.getD "")) == ".ts") = false)
    (hcmd : getRunCommand (toLowerCase (extname (opts.entryPoint.getD "")))
      (opts.entryPoint.getD "") = some cmd) :
    ((oracle cmd).err = none →
      (runCode h oracle parse opts).2.result =
        Except.ok ⟨(oracle cmd).stdout, (oracle cmd).stderr,
          (oracle cmd).stderr == "" || jsTrim (oracle cmd).stderr == "",
          opts.entryPoint.getD ""⟩) ∧
    (∀ msg, (oracle cmd).err = some msg →
      strContains msg "exit code 1" = false →
      (runCode h oracle parse opts).2.result = Except.error msg) := by
  have hres : (runCode h oracle parse opts).2.result =
      (runCodeAfterMain oracle parse (createWorkspaceDirectory h).2 opts
        (stAfterMain opts) (opts.filename.getD "")).2.2 := by
    show (runCodeBody oracle parse (createWorkspaceDirectory h).2 opts).2.2 = _
    unfold runCodeBody
    rw [writeMain_phase opts hc hf]
  have hfile := resolveFileToRun_explicit parse opts (stAfterMain opts).fs
    (opts.filename.getD "") hep
  have hshape := runCodeAfterMain_result oracle parse
    (createWorkspaceDirectory h).2 opts (stAfterMain opts)
    (opts.filename.getD "") cmd (by rw [hfile]; exact hcmd)
    (by rw [hfile]; exact hnb)
  rw [hfile] at hshape
  constructor
  · intro hnone
    rw [hres, hshape, execResult_of_none oracle cmd hnone]
  · intro msg hmsg hinfix
    rw [hres, hshape, execResult_of_reject oracle cmd msg hmsg hinfix]

/-- Request running `a.py` via an explicit entry point. -/
def optsEp : Options := ⟨some "print(1)", some "a.py", none, [], some "a.py", false⟩

/-- C2 witness: the amended theorem applied to a concrete succeeding run. -/
theorem runCode_result_shape_witness :
    (runCode h0 oracleOk parse0 optsEp).2.result =
      Except.ok ⟨"hi", "", true, "a.py"⟩ :=
  (runCode_result_shape h0 oracleOk parse0 optsEp "python \"a.py\""
    rfl rfl rfl rfl rfl).1 rfl

/-- Exec oracle of a process that exits non-zero (the callback receives an
error) with empty stderr, whose error message happens to contain
`exit code 1`, so the promise resolves. -/
def oracleExit1 : Oracle :=
  fun _ => ⟨some "Command failed: python exit code 1", "out", ""⟩

/-- C3 (code bug): a process that ran to completion with a non-zero exit
status (exec reported an error) but empty stderr is classified successful —
`success` is computed from stderr alone (line 641), although the code's own
comment says "based on both stderr and exit code" and the claim requires
non-zero exit to be unsuccessful.  stdout/stderr are still returned. -/
theorem success_ignores_exit_code :
    (runCode h0 oracleExit1 parse0 optsPy).2.result =
      Except.ok ⟨"out", "", true, "a.py"⟩ := rfl

/-- Request supplying both inline code+filename and an existing path. -/
def optsBoth : Options := ⟨some "x", some "a.py", some "b.js", [], none, false⟩

/-- C6 counterexample: a request supplying BOTH forms (inline code+filename
and existingPath) is not rejected — the inline form silently wins — refuting
"exactly one of the two forms is required". -/
theorem both_forms_processed_counterexample :
    (runCode h0 oracleOk parse0 optsBoth).2.result =
      Except.ok ⟨"hi", "", true, "a.py"⟩ := rfl

/-- C6 (amended): at least one of the two forms is required: when neither
(truthy) inline code+filename nor (truthy) existingPath is supplied, `runCode`
reports the request-validation error, no command is ever executed, and the
workspace has already been created and torn down by the time the call
completes. -/
theorem validation_requires_some_form (h : Handler) (oracle : Oracle)
    (parse : ParseFn) (opts : Options)
    (h1 : (optTruthy opts.code && optTruthy opts.filename) = false)
    (h2 : optTruthy opts.filepath = false) :
    (runCode h oracle parse opts).2.result = Except.error validationMsg ∧
    (∃ ws, (runCode h oracle parse opts).2.events =
      Event.createWs ws ::
        (opts.dependencies.map (fun d => Event.writeFile d.filename d.code)) ++
        [Event.destroyWs ws]) ∧
    cmdsOf (runCode h oracle parse opts).2.events = [] ∧
    (runCode h oracle parse opts).2.wsExists = false := by
  have hbody : runCodeBody oracle parse (createWorkspaceDirectory h).2 opts =
      (writeDeps opts ⟨⟨[]⟩, []⟩, none, Except.error validationMsg) := by
    unfold runCodeBody
    rw [writeMain_error opts h1 h2]
  have hev : (writeDeps opts ⟨⟨[]⟩, []⟩).events =
      opts.dependencies.map (fun d => Event.writeFile d.filename d.code) := by
    simpa using writeDeps_events opts ⟨⟨[]⟩, []⟩
  have hevents : (runCode h oracle parse opts).2.events =
      Event.createWs (createWorkspaceDirectory h).2 ::
        (opts.dependencies.map (fun d => Event.writeFile d.filename d.code)) ++
        [Event.destroyWs (createWorkspaceDirectory h).2] := by
    show Event.createWs (createWorkspaceDirectory h).2 ::
        (runCodeBody oracle parse (createWorkspaceDirectory h).2 opts).1.events ++
        [Event.destroyWs (createWorkspaceDirectory h).2] = _
    rw [hbody, hev]
  refine ⟨?_, ⟨_, hevents⟩, ?_, rfl⟩
  · show (runCodeBody oracle parse (createWorkspaceDirectory h).2 opts).2.2 = _
    rw [hbody]
  · rw [hevents]
    simpa [cmdsOf] using cmdsOf_writes opts.dependencies

/-- Request supplying neither form, with one dependency file. -/
def optsNeither : Options := ⟨none, none, none, [⟨"d.txt", "x"⟩], none, true⟩

/-- C6 witness: the amended theorem at a concrete neither-form request. -/
theorem validation_requires_some_form_witness :
    (runCode h0 oracleOk parse0 optsNeither).2.result =
      Except.error validationMsg :=
  (validation_requires_some_form h0 oracleOk parse0 optsNeither rfl rfl).1

/-! ## Filesystem write/lookup lemmas and the Node-setup frame claim -/

theorem beq_symm_false {q p : String} (hq : (q == p) = false) :
    (p == q) = false := by
  rw [beq_eq_false_iff_ne] at hq ⊢
  exact fun hh => hq hh.symm

theorem replace_pred_self (p c : String) :
    ((fun e => e.1 == p) ∘
      (fun e : String × String => if e.1 == p then (p, c) else e)) =
    (fun e : String × String => e.1 == p) := by
  funext e
  by_cases he : e.1 = p
  · simp [he]
  · simp [he]

theorem replace_pred_other (p c q : String) (hq : (q == p) = false) :
    ((fun e => e.1 == q) ∘
      (fun e : String × String => if e.1 == p then (p, c) else e)) =
    (fun e : String × String => e.1 == q) := by
  funext e
  by_cases he : e.1 = p
  · have hqp : ¬(p = q) := fun hh => (beq_eq_false_iff_ne.mp hq) hh.symm
    simp [he, hqp]
  · simp [he]

theorem fsLookup_fsWrite_self (fs : FS) (p c : String) :
    fsLookup (fsWrite fs p c) p = some c := by
  unfold fsLookup fsWrite
  split
  · next hany =>
    rw [List.find?_map, replace_pred_self p c]
    obtain ⟨e0, he0mem, he0p⟩ : ∃ x ∈ fs.files, (x.1 == p) = true := by
      simpa using hany
    obtain ⟨e1, he1⟩ : ∃ e1, fs.files.find? (fun e => e.1 == p) = some e1 :=
      Option.isSome_iff_exists.mp (List.find?_isSome.mpr ⟨e0, he0mem, he0p⟩)
    have hp1 : e1.1 = p := by simpa using List.find?_some he1
    rw [he1]
    simp [hp1]
  · next hany =>
    have hnone : fs.files.find? (fun e => e.1 == p) = none := by
      rw [List.find?_eq_none]
      intro x hx hpx
      exact hany (List.any_eq_true.mpr ⟨x, hx, hpx⟩)
    rw [List.find?_append, hnone]
    simp

theorem fsLookup_fsWrite_other (fs : FS) (p c q : String)
    (hq : (q == p) = false) :
    fsLookup (fsWrite fs p c) q = fsLookup fs q := by
  unfold fsLookup fsWrite
  split
  · rw [List.find?_map, replace_pred_other p c q hq]
    cases hf : fs.files.find? (fun e => e.1 == q) with
    | none => simp [hf]
    | some e1 =>
      have hq1 : e1.1 = q := by simpa using List.find?_some hf
      have he1p : ¬(e1.1 = p) := by
        intro hh
        exact (beq_eq_false_iff_ne.mp hq) (by rw [← hq1, hh])
      simp [hf, he1p]
  · rw [List.find?_append]
    simp [beq_symm_false hq]

/-- Workspace filesystem after `setupNodeProject`'s two template writes. -/
def nodeFs (fs : FS) : FS :=
  fsWrite (fsWrite fs "package.json" packageJsonTemplate) ".babelrc"
    babelrcTemplate

theorem nodeFs_lookup (fs : FS) :
    fsLookup (nodeFs fs) "package.json" = some packageJsonTemplate ∧
    fsLookup (nodeFs fs) ".babelrc" = some babelrcTemplate := by
  constructor
  · rw [nodeFs, fsLookup_fsWrite_other _ _ _ _ (by decide)]
    exact fsLookup_fsWrite_self fs "package.json" packageJsonTemplate
  · exact fsLookup_fsWrite_self _ ".babelrc" babelrcTemplate

/-- Tail of the pipeline when the resolved entry has one of the Node-setup
extensions: the two templates are written, `npm install` runs, and only if its
promise resolves is the entry command executed, with the template filesystem
as the execution snapshot. -/
theorem runCodeAfterMain_node (oracle : Oracle) (parse : ParseFn) (ws : String)
    (opts : Options) (stIn : Wst) (m : String) (cmd : String)
    (hcmd : getRunCommand
      (toLowerCase (extname (resolveFileToRun parse opts stIn.fs m)))
      (resolveFileToRun parse opts stIn.fs m) = some cmd)
    (hext : (toLowerCase (extname (resolveFileToRun parse opts stIn.fs m)) == ".jsx" ||
             toLowerCase (extname (resolveFileToRun parse opts stIn.fs m)) == ".tsx" ||
             toLowerCase (extname (resolveFileToRun parse opts stIn.fs m)) == ".ts") = true) :
    (runCodeAfterMain oracle parse ws opts stIn m).1.events =
      (setupPhase oracle parse ws opts stIn).events ++
        ([Event.writeFile "package.json" packageJsonTemplate,
          Event.writeFile ".babelrc" babelrcTemplate,
          Event.runCmd (cdCmd ws "npm install")] ++
         (match execResult oracle (cdCmd ws "npm install") with
          | Except.ok _ => [Event.runCmd cmd]
          | Except.error _ => [])) ∧
    (runCodeAfterMain oracle parse ws opts stIn m).2.1 =
      (match execResult oracle (cdCmd ws "npm install") with
       | Except.ok _ => some (nodeFs stIn.fs)
       | Except.error _ => none) := by
  simp only [runCodeAfterMain]
  rw [(setupPhase_extends oracle parse ws opts stIn).2, hcmd, hext]
  cases hr : execResult oracle (cdCmd ws "npm install") with
  | ok v =>
    cases hr2 : execResult oracle cmd with
    | ok w =>
      constructor
      · simp [setupNodeProject, executeCommand, emitWrite, emitCmd, Except.map,
          hr, hr2]
      · simp [setupNodeProject, executeCommand, emitWrite, emitCmd, Except.map,
          hr, hr2, nodeFs, (setupPhase_extends oracle parse ws opts stIn).2]
    | error e2 =>
      constructor
      · simp [setupNodeProject, executeCommand, emitWrite, emitCmd, Except.map,
          hr, hr2]
      · simp [setupNodeProject, executeCommand, emitWrite, emitCmd, Except.map,
          hr, hr2, nodeFs, (setupPhase_extends oracle parse ws opts stIn).2]
  | error e =>
    constructor
    · simp [setupNodeProject, executeCommand, emitWrite, emitCmd, Except.map, hr]
    · simp [setupNodeProject, executeCommand, emitWrite, emitCmd, Except.map, hr]

/-- Tail of the pipeline for all other extensions: the execution snapshot, if
any, is exactly the filesystem as the setup pass left it. -/
theorem runCodeAfterMain_nonNode_execFs (oracle : Oracle) (parse : ParseFn)
    (ws : String) (opts : Options) (stIn : Wst) (m : String)
    (hnb : (toLowerCase (extname (resolveFileToRun parse opts stIn.fs m)) == ".jsx" ||
            toLowerCase (extname (resolveFileToRun parse opts stIn.fs m)) == ".tsx" ||
            toLowerCase (extname (resolveFileToRun parse opts stIn.fs m)) == ".ts") = false) :
    (runCodeAfterMain oracle parse ws opts stIn m).2.1 = none ∨
    (runCodeAfterMain oracle parse ws opts stIn m).2.1 = some stIn.fs := by
  simp only [runCodeAfterMain]
  rw [(setupPhase_extends oracle parse ws opts stIn).2]
  split
  · left; rfl
  · rw [hnb]
    rename_i c heq0
    cases hr : execResult oracle c with
    | ok v =>
      right
      simp [executeCommand, hr, (setupPhase_extends oracle parse ws opts stIn).2]
    | error e =>
      right
      simp [executeCommand, hr, (setupPhase_extends oracle parse ws opts stIn).2]

theorem getRunCommand_node_isSome (ext ft : String)
    (hext : (ext == ".jsx" || ext == ".tsx" || ext == ".ts") = true) :
    ∃ cmd, getRunCommand ext ft = some cmd := by
  have hext2 : ext = ".jsx" ∨ ext = ".tsx" ∨ ext = ".ts" := by
    simpa [or_assoc] using hext
  rcases hext2 with h | h | h <;> rw [h] <;> exact ⟨_, rfl⟩

/-- C10: for a valid inline request whose resolved entry file has extension
`.jsx`, `.tsx` or `.ts`, `runCode` overwrites the workspace's package.json and
.babelrc with the fixed Node/Babel templates (so any request-supplied
package.json does not survive to execution) and runs `npm install`, after
which the only remaining steps are the entry command itself (only if
`npm install` resolved) and workspace destruction; for every other extension
the pre-execution step leaves the workspace untouched: the execution snapshot,
if any, is exactly the post-write post-setup filesystem. -/
theorem setup_node_overwrites (h : Handler) (oracle : Oracle) (parse : ParseFn)
    (opts : Options) (hc : optTruthy opts.code = true)
    (hf : optTruthy opts.filename = true) :
    ((toLowerCase (extname (resolveFileToRun parse opts (mainFs opts)
          (opts.filename.getD ""))) == ".jsx" ||
      toLowerCase (extname (resolveFileToRun parse opts (mainFs opts)
          (opts.filename.getD ""))) == ".tsx" ||
      toLowerCase (extname (resolveFileToRun parse opts (mainFs opts)
          (opts.filename.getD ""))) == ".ts") = true →
      (∀ g, (runCode h oracle parse opts).2.execFs = some g →
        g = nodeFs (mainFs opts) ∧
        fsLookup g "package.json" = some packageJsonTemplate ∧
        fsLookup g ".babelrc" = some babelrcTemplate) ∧
      (∃ cmd pre tail,
        getRunCommand (toLowerCase (extname (resolveFileToRun parse opts
          (mainFs opts) (opts.filename.getD ""))))
          (resolveFileToRun parse opts (mainFs opts) (opts.filename.getD "")) =
          some cmd ∧
        (runCode h oracle parse opts).2.events =
          pre ++ [Event.writeFile "package.json" packageJsonTemplate,
                  Event.writeFile ".babelrc" babelrcTemplate,
                  Event.runCmd (cdCmd (createWorkspaceDirectory h).2 "npm install")]
            ++ tail ∧
        (tail = [Event.runCmd cmd,
                 Event.destroyWs (createWorkspaceDirectory h).2] ∨
         tail = [Event.destroyWs (createWorkspaceDirectory h).2]))) ∧
    ((toLowerCase (extname (resolveFileToRun parse opts (mainFs opts)
          (opts.filename.getD ""))) == ".jsx" ||
      toLowerCase (extname (resolveFileToRun parse opts (mainFs opts)
          (opts.filename.getD ""))) == ".tsx" ||
      toLowerCase (extname (resolveFileToRun parse opts (mainFs opts)
          (opts.filename.getD ""))) == ".ts") = false →
      (runCode h oracle parse opts).2.execFs = none ∨
      (runCode h oracle parse opts).2.execFs = some (mainFs opts)) := by
  have hbody : runCodeBody oracle parse (createWorkspaceDirectory h).2 opts =
      runCodeAfterMain oracle parse (createWorkspaceDirectory h).2 opts
        (stAfterMain opts) (opts.filename.getD "") := by
    unfold runCodeBody
    rw [writeMain_phase opts hc hf]
  have hfs : (stAfterMain opts).fs = mainFs opts := rfl
  constructor
  · intro hext
    obtain ⟨cmd, hcmd⟩ := getRunCommand_node_isSome _ _ hext
    have hnode := runCodeAfterMain_node oracle parse
      (createWorkspaceDirectory h).2 opts (stAfterMain opts)
      (opts.filename.getD "") cmd hcmd hext
    constructor
    · intro g hg
      have hexecFs : (runCode h oracle parse opts).2.execFs =
          (runCodeAfterMain oracle parse (createWorkspaceDirectory h).2 opts
            (stAfterMain opts) (opts.filename.getD "")).2.1 := by
        show (runCodeBody oracle parse (createWorkspaceDirectory h).2 opts).2.1 = _
        rw [hbody]
      rw [hexecFs, hnode.2] at hg
      cases hr : execResult oracle
          (cdCmd (createWorkspaceDirectory h).2 "npm install") with
      | ok v =>
        simp only [hr] at hg
        have hg2 : nodeFs (stAfterMain opts).fs = g := by simpa using hg
        subst hg2
        exact ⟨rfl, nodeFs_lookup (mainFs opts)⟩
      | error e =>
        simp [hr] at hg
    · refine ⟨cmd, Event.createWs (createWorkspaceDirectory h).2 ::
        (setupPhase oracle parse (createWorkspaceDirectory h).2 opts
          (stAfterMain opts)).events,
        (match execResult oracle
            (cdCmd (createWorkspaceDirectory h).2 "npm install") with
         | Except.ok _ => [Event.runCmd cmd]
         | Except.error _ => []) ++
          [Event.destroyWs (createWorkspaceDirectory h).2], hcmd, ?_, ?_⟩
      · show Event.createWs (createWorkspaceDirectory h).2 ::
            (runCodeBody oracle parse (createWorkspaceDirectory h).2 opts).1.events
            ++ [Event.destroyWs (createWorkspaceDirectory h).2] = _
        rw [hbody, hnode.1]
        simp
      · cases hr : execResult oracle
            (cdCmd (createWorkspaceDirectory h).2 "npm install") with
        | ok v => left; simp [hr]
        | error e => right; simp [hr]
  · intro hnext
    have hnn := runCodeAfterMain_nonNode_execFs oracle parse
      (createWorkspaceDirectory h).2 opts (stAfterMain opts)
      (opts.filename.getD "") hnext
    have hexecFs : (runCode h oracle parse opts).2.execFs =
        (runCodeAfterMain oracle parse (createWorkspaceDirectory h).2 opts
          (stAfterMain opts) (opts.filename.getD "")).2.1 := by
      show (runCodeBody oracle parse (createWorkspaceDirectory h).2 opts).2.1 = _
      rw [hbody]
    rw [hexecFs]
    exact hnn

/-- Request with an inline `.ts` main file and a request-supplied
package.json dependency. -/
def optsTs : Options :=
  ⟨some "let x = 1", some "a.ts", none, [⟨"package.json", "mine"⟩], none, false⟩

/-- C10 witness: on a concrete `.ts` request whose dependencies include a
package.json, the snapshot at execution holds the templates, not the
request-supplied file. -/
theorem setup_node_overwrites_witness :
    nodeFs (mainFs optsTs) = nodeFs (mainFs optsTs) ∧
    fsLookup (nodeFs (mainFs optsTs)) "package.json" =
      some packageJsonTemplate ∧
    fsLookup (nodeFs (mainFs optsTs)) ".babelrc" = some babelrcTemplate :=
  ((setup_node_overwrites h0 oracleOk parse0 optsTs rfl rfl).1 rfl).1
    (nodeFs (mainFs optsTs)) rfl

/-! ## Claim theorem: setup-command deduplication -/

/-- C8: one preparation pass executes each install/build command string at
most once — the list of commands it adds to the trace has no duplicates, for
every workspace content, parse oracle and command-outcome oracle. -/
theorem setup_commands_nodup (oracle : Oracle) (parse : ParseFn) (ws : String)
    (fs : FS) (st : Wst) :
    ∃ δ, (detectAndRunSetupCommands oracle parse ws fs st).events =
        st.events ++ δ ∧ (cmdsOf δ).Nodup := by
  obtain ⟨δ, he, hsub, -, -⟩ := detectAndRunSetup_extends oracle parse ws fs st
  refine ⟨δ, he, hsub.nodup ?_⟩
  rw [allSeg_eq]
  exact rawCands_nodup.map (cdCmd_injective ws)

end Shadow
